import Mathlib

/-!
Shallow embedding of the bitrise-ai-core agent orchestration core
(packages `pkg/llm`, `pkg/tool`, `pkg/core`, `pkg/agent`) and proofs of the
specification claims about it.

Modelling conventions:
* Go machine integers (`int`, `int64`) are `Int`; token counts never approach
  overflow in the claims, so no wrap-around modelling is needed.
* `json.RawMessage` payloads are modelled by the inductive `Json` value they
  denote; the gob serializer treats them as opaque (a single token), exactly
  as Go's gob treats a `[]byte` field.
* `time.Time` is a `Nat` instant; the zero `time.Time` is `Option.none`.
* Go maps are association lists with insert-overwrite semantics; every
  observation the code makes of a map (lookup, sorted key list) is
  order-insensitive, so the representation order is never visible.
* The model provider is scripted: each turn's `TurnEnv` carries the provider
  reply for that turn.  Concurrent tool dispatch is linearized by an explicit
  completion order (the order goroutine results arrive on the shared channel).
* Go `panic` and Go `error` returns are both modelled with `Except String`;
  doc comments say which is which.
-/

namespace BitriseAICore

/-- pkg/llm/message.go `TokenUsage`: four token counters. -/
structure TokenUsage where
  InputTokens : Int
  OutputTokens : Int
  CacheCreationTokens : Int
  CacheReadTokens : Int
deriving Repr, DecidableEq

/-- pkg/llm/message.go `TokenUsage.Total`: sum of the four counters. -/
def TokenUsage.Total (ts : TokenUsage) : Int :=
  ts.InputTokens + ts.OutputTokens + ts.CacheCreationTokens + ts.CacheReadTokens

/-- The zero value of Go's `TokenUsage` struct. -/
def TokenUsage.zero : TokenUsage := ⟨0, 0, 0, 0⟩

/-- Componentwise addition, as done by `Agent.updateUsage` and `Base.addUsage`. -/
def TokenUsage.add (a b : TokenUsage) : TokenUsage :=
  ⟨a.InputTokens + b.InputTokens, a.OutputTokens + b.OutputTokens,
   a.CacheCreationTokens + b.CacheCreationTokens, a.CacheReadTokens + b.CacheReadTokens⟩

/-- Componentwise subtraction, as done by the `Run` façade when computing the
usage delta beyond `previousMeta`. -/
def TokenUsage.sub (a b : TokenUsage) : TokenUsage :=
  ⟨a.InputTokens - b.InputTokens, a.OutputTokens - b.OutputTokens,
   a.CacheCreationTokens - b.CacheCreationTokens, a.CacheReadTokens - b.CacheReadTokens⟩

/-- The JSON value denoted by a Go `json.RawMessage` payload.  Numbers are
restricted to integers, which is all the decoders in this development accept. -/
inductive Json where
  | null : Json
  | bool (b : Bool) : Json
  | num (n : Int) : Json
  | str (s : String) : Json
  | arr (elems : List Json) : Json
  | obj (fields : List (String × Json)) : Json
deriving Repr

/-- pkg/llm/message.go `ContentPart`: the closed variant over text, tool call
and tool result.  Field order follows the Go struct declarations. -/
inductive ContentPart where
  | text (Text : String) : ContentPart
  | toolCall (ID Name : String) (Input : Json) : ContentPart
  | toolResult (ToolCallID ToolName Content : String) (IsError : Bool) : ContentPart
deriving Repr

/-- pkg/llm/message.go `MessageRole`. -/
inductive MessageRole where
  | assistant : MessageRole
  | user : MessageRole
deriving Repr, DecidableEq

/-- pkg/llm/message.go `Message`. -/
structure Message where
  Role : MessageRole
  Parts : List ContentPart
  Usage : TokenUsage
deriving Repr

/-- pkg/llm/message.go `NewUserMessage`: role user, given parts, zero usage. -/
def NewUserMessage (parts : List ContentPart) : Message :=
  ⟨MessageRole.user, parts, TokenUsage.zero⟩

/-- The kind of the Go type a caller declares as the agent's result type
(`reflect.Kind`, restricted to the kinds the code distinguishes). -/
inductive GoKind where
  | int : GoKind
  | string : GoKind
  | bool : GoKind
  | float : GoKind
  | slice : GoKind
  | mapKind : GoKind
  | ptr : GoKind
  | struct : GoKind
  | interface : GoKind
deriving Repr, DecidableEq

/-- Models `reflect.TypeOf` applied to the zero value of a type of the given
kind.  The zero value of an interface type is a nil interface, for which
`reflect.TypeOf` returns nil (`none`); the zero value of every other kind is
boxed with its concrete type. -/
def reflectTypeOfZero : GoKind → Option GoKind
  | GoKind.interface => none
  | k => some k

/-- The Go runtime panic message for a nil-pointer method call. -/
def nilKindPanicText : String :=
  "runtime error: invalid memory address or nil pointer dereference"

/-- src/unnamed/part_003 `structResultType`.  `Except.error` models the Go
runtime panic raised by calling `Kind()` on the nil `reflect.Type` obtained
for an interface result type. -/
def structResultType (k : GoKind) : Except String Bool :=
  match reflectTypeOfZero k with
  | none => Except.error nilKindPanicText
  | some k2 => Except.ok (k2 = GoKind.struct)

/-- A JSON schema, as produced by the invopop/jsonschema reflector.  `reflected
k` stands for the schema the reflector derives for a type of kind `k`;
`objFields` is an object schema with named properties; `nilSchema` is the zero
(nil pointer) schema of a zero-valued `llm.ToolDefinition`. -/
inductive JsonSchema where
  | nilSchema : JsonSchema
  | reflected (k : GoKind) : JsonSchema
  | objFields (fields : List (String × JsonSchema)) : JsonSchema
deriving Repr

/-- Models `GenerateSchema[ResultT]()` for a result type of kind `k`. -/
def GenerateSchemaFor (k : GoKind) : JsonSchema := JsonSchema.reflected k

/-- Models `GenerateSchema[finalResultPrimitiveInput[ResultT]]()`: the struct
`finalResultPrimitiveInput` (src/pkg/tool/final_result.go) has the single JSON
field `response` holding a `ResultT`, so its reflected schema is the
single-field envelope object. -/
def GenerateSchemaEnvelope (k : GoKind) : JsonSchema :=
  JsonSchema.objFields [("response", JsonSchema.reflected k)]

/-- pkg/llm (message.go / provider contract) `ToolDefinition`. -/
structure ToolDefinition where
  Name : String
  Description : String
  Schema : JsonSchema
deriving Repr

/-- How a registered tool's `UseFunc` behaves: caller-supplied tools are pure
functions of their raw input; the reserved final-result entry is the belt's
own `finalResult` method, which writes the agent's terminal result slot. -/
inductive UseFn (ResultT : Type) where
  | pure (f : Json → Except String String) : UseFn ResultT
  | finalResultFn : UseFn ResultT

/-- src/unnamed/part_003 `Definition`: an `llm.ToolDefinition` plus the
invocation function. -/
structure Definition (ResultT : Type) where
  Name : String
  Description : String
  Schema : JsonSchema
  UseFunc : UseFn ResultT

/-- Projection to the embedded `llm.ToolDefinition`. -/
def Definition.toToolDefinition {ResultT : Type} (d : Definition ResultT) : ToolDefinition :=
  ⟨d.Name, d.Description, d.Schema⟩

/-- Go map lookup on an association-list representation. -/
def mapLookup {α : Type} (k : String) : List (String × α) → Option α
  | [] => none
  | (k2, v2) :: rest => if k2 = k then some v2 else mapLookup k rest

/-- Go map insertion: overwrites the binding for `k` if present, otherwise
appends it. -/
def mapInsert {α : Type} (k : String) (v : α) : List (String × α) → List (String × α)
  | [] => [(k, v)]
  | (k2, v2) :: rest => if k2 = k then (k, v) :: rest else (k2, v2) :: mapInsert k v rest

/-- The key set of a Go map. -/
def mapKeys {α : Type} (m : List (String × α)) : List String := m.map Prod.fst

/-- Models `sort.Strings` (insertion sort; the keys of a Go map are distinct,
so any comparison sort yields the same list). -/
def insertSorted (s : String) : List String → List String
  | [] => [s]
  | t :: rest => if s ≤ t then s :: t :: rest else t :: insertSorted s rest

/-- Models `sort.Strings`. -/
def sortStrings : List String → List String
  | [] => []
  | s :: rest => insertSorted s (sortStrings rest)

/-- src/pkg/tool/final_result.go `FinalResultToolName`. -/
def FinalResultToolName : String := "FinalResult"

/-- src/pkg/tool/final_result.go `finalResultDescription`. -/
def finalResultDescription : String := "The final response which ends this conversation"

/-- Everything the model needs to know about the caller-declared Go result
type `ResultT`: its `reflect` kind, its zero value, and what
`json.Unmarshal` into it does. -/
structure ResultTypeInfo (ResultT : Type) where
  kind : GoKind
  zero : ResultT
  unmarshal : Json → Except String ResultT

/-- Decoding the fields of a JSON object into
`finalResultPrimitiveInput[ResultT]`: `encoding/json` processes keys in
order, decodes the `response` key with the field's decoder and ignores
unknown keys. -/
def decodeResponseField {ResultT : Type} (info : ResultTypeInfo ResultT) :
    ResultT → List (String × Json) → Except String ResultT
  | acc, [] => Except.ok acc
  | acc, (k, v) :: rest =>
    if k = "response" then
      match info.unmarshal v with
      | Except.error e => Except.error e
      | Except.ok r => decodeResponseField info r rest
    else decodeResponseField info acc rest

/-- Models `json.Unmarshal` into a fresh `finalResultPrimitiveInput[ResultT]`
(src/pkg/tool/final_result.go lines 12-14), projected to its `Response` field:
an object decodes its `response` key (absent key leaves the zero value), JSON
null is a decode no-op leaving the zero value, anything else is a type error. -/
def unmarshalPrimitiveInput {ResultT : Type} (info : ResultTypeInfo ResultT) :
    Json → Except String ResultT
  | Json.obj fields => decodeResponseField info info.zero fields
  | Json.null => Except.ok info.zero
  | _ => Except.error "json: cannot unmarshal value into Go value of type tool.finalResultPrimitiveInput"

/-- src/pkg/tool/final_result.go `finalResult` (the belt's reserved tool
function).  Takes and returns the agent's final-result slot (`SetFinalResult`
writes it); the `Except.error` inside the pair is the Go error return.  The
leading `structResultType` match mirrors the Go call; its panic case is
unreachable once a belt for this type exists. -/
def finalResult {ResultT : Type} (info : ResultTypeInfo ResultT)
    (slot : Option ResultT) (llmInput : Json) :
    Option ResultT × Except String String :=
  match structResultType info.kind with
  | Except.error e => (slot, Except.error e)
  | Except.ok isStruct =>
    if !isStruct then
      match unmarshalPrimitiveInput info llmInput with
      | Except.error e => (slot, Except.error ("unmarshal input: " ++ e))
      | Except.ok v => (some v, Except.ok "Final result processed.")
    else
      match info.unmarshal llmInput with
      | Except.error e => (slot, Except.error ("unmarshal input: " ++ e))
      | Except.ok v => (some v, Except.ok "Final result processed.")

/-- src/unnamed/part_003 `Belt`: the tool registry. -/
structure Belt (ResultT : Type) where
  toolDefinitions : List (String × Definition ResultT)

/-- src/unnamed/part_003 `NewBelt`: installs the reserved final-result entry
first, then inserts every caller-supplied tool into the same map.
`Except.error` models the Go panic of `structResultType` for result types
whose zero value has no concrete dynamic type. -/
def NewBelt {ResultT : Type} (info : ResultTypeInfo ResultT)
    (Tools : List (Definition ResultT)) : Except String (Belt ResultT) :=
  match structResultType info.kind with
  | Except.error e => Except.error e
  | Except.ok isStruct =>
    let finalResultSchema :=
      if isStruct then GenerateSchemaFor info.kind else GenerateSchemaEnvelope info.kind
    let m0 := mapInsert FinalResultToolName
      ⟨FinalResultToolName, finalResultDescription, finalResultSchema, UseFn.finalResultFn⟩
      ([] : List (String × Definition ResultT))
    Except.ok ⟨Tools.foldl (fun m d => mapInsert d.Name d m) m0⟩

/-- src/unnamed/part_003 `UseTool`: resolve the name, fail with the
unknown-tool error if absent, otherwise invoke.  The final-result slot is
threaded through because the reserved tool writes it. -/
def UseTool {ResultT : Type} (info : ResultTypeInfo ResultT) (tb : Belt ResultT)
    (slot : Option ResultT) (name : String) (input : Json) :
    Option ResultT × Except String String :=
  match mapLookup name tb.toolDefinitions with
  | none => (slot, Except.error ("unknown tool: " ++ name))
  | some d =>
    match d.UseFunc with
    | UseFn.pure f => (slot, f input)
    | UseFn.finalResultFn => finalResult info slot input

/-- src/unnamed/part_003 `LLMDefinitions`: the registered definitions sorted
by name. -/
def Belt.LLMDefinitions {ResultT : Type} (tb : Belt ResultT) : List ToolDefinition :=
  (sortStrings (mapKeys tb.toolDefinitions)).filterMap
    (fun name => (mapLookup name tb.toolDefinitions).map Definition.toToolDefinition)

/-- src/unnamed/part_003 `FinalResultDefinition`: map index with the reserved
name; a missing entry yields Go's zero `Definition` (nil schema). -/
def Belt.FinalResultDefinition {ResultT : Type} (tb : Belt ResultT) : ToolDefinition :=
  match mapLookup FinalResultToolName tb.toolDefinitions with
  | some d => d.toToolDefinition
  | none => ⟨"", "", JsonSchema.nilSchema⟩

/-- pkg/core/agent.go `Agent` (the provider handle, logger and tool belt are
kept outside the state record: the provider is scripted per turn, logging is
not modelled, and the belt is passed alongside). `finalResult = some v`
models `finalResultSet = true` with value `v`. -/
structure Agent (ResultT : Type) where
  systemPrompt : String
  sessionFilePath : String
  maxToolLogLength : Nat
  llmMessages : List Message
  llmUsage : TokenUsage
  agentNum : Int
  maxTokenUsage : Int
  timeboxedUntil : Option Nat
  cacheBust : Bool
  finalResult : Option ResultT

/-- pkg/core/run_turn.go `timeboxExpired`: the zero deadline never expires;
otherwise `time.Now().After(deadline)` (strict). -/
def timeboxExpired {ResultT : Type} (agent : Agent ResultT) (now : Nat) : Bool :=
  match agent.timeboxedUntil with
  | none => false
  | some d => d < now

/-- The message built by pkg/core/agent.go `addSystemReminder`. -/
def systemReminderMessage (content : String) : Message :=
  NewUserMessage [ContentPart.text ("<system-reminder>" ++ content ++ "</system-reminder>")]

/-- pkg/core/agent.go `addSystemReminder`. -/
def addSystemReminder {ResultT : Type} (agent : Agent ResultT) (content : String) :
    Agent ResultT :=
  { agent with llmMessages := agent.llmMessages ++ [systemReminderMessage content] }

/-- pkg/core/agent.go `addUserPrompt`. -/
def addUserPrompt {ResultT : Type} (agent : Agent ResultT) (prompt : String) :
    Agent ResultT :=
  { agent with llmMessages := agent.llmMessages ++ [NewUserMessage [ContentPart.text prompt]] }

/-- pkg/core/agent.go `updateUsage`: folds the turn's usage into the
cumulative counters (a receiver mutation, kept even on error), then errors if
a positive ceiling is exceeded.  The returned agent is the mutated receiver;
`some e` is the Go error return. -/
def updateUsage {ResultT : Type} (agent : Agent ResultT) (u : TokenUsage) :
    Agent ResultT × Option String :=
  let agent2 := { agent with llmUsage := agent.llmUsage.add u }
  if 0 < agent2.maxTokenUsage then
    if agent2.maxTokenUsage < agent2.llmUsage.Total then
      (agent2, some ("maximum token usage exceeded: " ++ toString agent2.llmUsage.Total
        ++ " > " ++ toString agent2.maxTokenUsage))
    else (agent2, none)
  else (agent2, none)

/-- pkg/core/run_turn.go `toolUseParams`. -/
structure toolUseParams where
  ID : String
  Name : String
  Input : Json

/-- The tool-call partition of an assistant message's parts
(pkg/core/run_turn.go lines 46-56; text parts are logged only). -/
def extractToolUses : List ContentPart → List toolUseParams
  | [] => []
  | ContentPart.toolCall id name input :: rest => ⟨id, name, input⟩ :: extractToolUses rest
  | _ :: rest => extractToolUses rest

/-- pkg/core/run_turn.go `useTool`: short-circuit with a synthetic error
result if the timebox expired and the call is not the final-result tool;
otherwise invoke through the belt, folding a tool error into an error-flagged
`ToolResult` rather than failing. -/
def useTool {ResultT : Type} (info : ResultTypeInfo ResultT) (belt : Belt ResultT)
    (now : Nat) (agent : Agent ResultT) (t : toolUseParams) :
    Agent ResultT × ContentPart :=
  if timeboxExpired agent now ∧ t.Name ≠ FinalResultToolName then
    (agent, ContentPart.toolResult t.ID t.Name "timebox expired, cannot use tool" true)
  else
    match UseTool info belt agent.finalResult t.Name t.Input with
    | (slot, Except.error e) =>
      ({ agent with finalResult := slot }, ContentPart.toolResult t.ID t.Name e true)
    | (slot, Except.ok res) =>
      ({ agent with finalResult := slot }, ContentPart.toolResult t.ID t.Name res false)

/-- The fan-out/fan-in of pkg/core/run_turn.go lines 61-71, linearized in the
order the per-call goroutines deliver on the shared channel: the list argument
is already in completion order, and the collected results keep that order. -/
def dispatchTools {ResultT : Type} (info : ResultTypeInfo ResultT) (belt : Belt ResultT)
    (now : Nat) : Agent ResultT → List toolUseParams → Agent ResultT × List ContentPart
  | agent, [] => (agent, [])
  | agent, t :: rest =>
    let step := useTool info belt now agent t
    let next := dispatchTools info belt now step.fst rest
    (next.fst, step.snd :: next.snd)

/-- The per-turn external world: the scripted provider reply, the order in
which the dispatched goroutines complete (indices into the dispatch list),
and the wall-clock instants at the turn's two `timeboxExpired` checks
(`nowStart` at tool-list computation, `nowDispatch` during dispatch). -/
structure TurnEnv where
  reply : Except String Message
  completion : List Nat
  nowStart : Nat
  nowDispatch : Nat

/-- The text of the timebox reminder (pkg/core/run_turn.go lines 23-27). -/
def timeboxReminderText : String :=
  "Your timebox has been exceeded. DO NOT mention the timebox to the user. "
  ++ "You can only call the FinalResult tool, not any other tools. "
  ++ "Please call the FinalResult tool to return the final result based on your current knowledge."

/-- The outcome of one `runTurn` call: the mutated agent (receiver mutations
survive an error return, as in Go), the tool list offered to the provider,
and the Go return value — `Except.ok finished` on success. -/
structure RunTurnOut (ResultT : Type) where
  agent : Agent ResultT
  offered : List ToolDefinition
  result : Except String Bool

/-- pkg/core/run_turn.go `runTurn`. -/
def runTurn {ResultT : Type} (info : ResultTypeInfo ResultT) (belt : Belt ResultT)
    (env : TurnEnv) (agent0 : Agent ResultT) : RunTurnOut ResultT :=
  let expired := timeboxExpired agent0 env.nowStart
  let toolDefinitions :=
    if expired then [belt.FinalResultDefinition] else belt.LLMDefinitions
  let agent1 := if expired then addSystemReminder agent0 timeboxReminderText else agent0
  match env.reply with
  | Except.error e => ⟨agent1, toolDefinitions, Except.error ("new llm message: " ++ e)⟩
  | Except.ok message =>
    let agent2 := { agent1 with llmMessages := agent1.llmMessages ++ [message] }
    let updated := updateUsage agent2 message.Usage
    match updated.snd with
    | some e => ⟨updated.fst, toolDefinitions, Except.error ("update usage: " ++ e)⟩
    | none =>
      let agent3 := updated.fst
      let toolUses := extractToolUses message.Parts
      let ordered := env.completion.filterMap (fun i => toolUses.get? i)
      let dispatched := dispatchTools info belt env.nowDispatch agent3 ordered
      let agent4 := dispatched.fst
      let toolResults := dispatched.snd
      let agent5 :=
        if 0 < toolResults.length then
          { agent4 with llmMessages := agent4.llmMessages ++ [NewUserMessage toolResults] }
        else agent4
      ⟨agent5, toolDefinitions,
        Except.ok (toolResults.length = 0 || agent5.finalResult.isSome)⟩

/-- The text of the missing-final-result reminder (pkg/core/agent.go line 124). -/
def finalResultReminderText : String :=
  "You need to call the FinalResult tool to return a result. Please do so."

/-- How a run ends in the model.  `outOfScript` marks an execution that ran
past the scripted provider replies; it corresponds to no Go behavior and the
theorems never rely on it. -/
inductive RunOutcome (ResultT : Type) where
  | success (Data : ResultT) (TotalUsage : TokenUsage) (Messages : List Message) : RunOutcome ResultT
  | failure (msg : String) : RunOutcome ResultT
  | outOfScript : RunOutcome ResultT

/-- The turn loop of pkg/core/agent.go `Run` (lines 108-127): run a turn,
stop with the wrapped error on failure, keep looping while unfinished, return
the final result when set, otherwise inject the final-result reminder and
loop.  One scripted `TurnEnv` is consumed per turn. -/
def runLoop {ResultT : Type} (info : ResultTypeInfo ResultT) (belt : Belt ResultT) :
    Agent ResultT → List TurnEnv → Agent ResultT × RunOutcome ResultT
  | agent, [] => (agent, RunOutcome.outOfScript)
  | agent, env :: rest =>
    let out := runTurn info belt env agent
    match out.result with
    | Except.error e => (out.agent, RunOutcome.failure ("run turn: " ++ e))
    | Except.ok finished =>
      if !finished then runLoop info belt out.agent rest
      else
        match out.agent.finalResult with
        | some v =>
          (out.agent,
            RunOutcome.success v out.agent.llmUsage out.agent.llmMessages)
        | none => runLoop info belt (addSystemReminder out.agent finalResultReminderText) rest

/-- One token of the gob wire stream.  `bytes` models a `[]byte` payload
(gob transmits `json.RawMessage` fields opaquely), carried here as the JSON
value those bytes denote. -/
inductive GobTok where
  | nat (n : Nat) : GobTok
  | int (i : Int) : GobTok
  | str (s : String) : GobTok
  | bool (b : Bool) : GobTok
  | bytes (j : Json) : GobTok

/-- Models encoding/gob for one `llm.ContentPart` interface value after
`registerTypesForSession` (pkg/core/session.go): the registered concrete type
is transmitted as a tag ahead of the value — the tagged-union-aware encoding
the spec requires. -/
def gobEncodePart : ContentPart → List GobTok
  | ContentPart.text t => [GobTok.nat 0, GobTok.str t]
  | ContentPart.toolCall id name input =>
    [GobTok.nat 1, GobTok.str id, GobTok.str name, GobTok.bytes input]
  | ContentPart.toolResult cid tname content isErr =>
    [GobTok.nat 2, GobTok.str cid, GobTok.str tname, GobTok.str content, GobTok.bool isErr]

/-- Gob decoding of one `llm.ContentPart`: dispatch on the transmitted type
tag.  `none` models a gob decode error (corrupt or untagged data). -/
def gobDecodePart : List GobTok → Option (ContentPart × List GobTok)
  | GobTok.nat 0 :: GobTok.str t :: rest => some (ContentPart.text t, rest)
  | GobTok.nat 1 :: GobTok.str id :: GobTok.str name :: GobTok.bytes input :: rest =>
    some (ContentPart.toolCall id name input, rest)
  | GobTok.nat 2 :: GobTok.str cid :: GobTok.str tname :: GobTok.str content
      :: GobTok.bool isErr :: rest =>
    some (ContentPart.toolResult cid tname content isErr, rest)
  | _ => none

/-- Gob encoding of a part list: length-prefixed elements. -/
def gobEncodeParts : List ContentPart → List GobTok
  | [] => []
  | p :: rest => gobEncodePart p ++ gobEncodeParts rest

/-- Gob decoding of `n` consecutive parts. -/
def gobDecodeParts : Nat → List GobTok → Option (List ContentPart × List GobTok)
  | 0, toks => some ([], toks)
  | n + 1, toks =>
    match gobDecodePart toks with
    | none => none
    | some (p, rest) =>
      match gobDecodeParts n rest with
      | none => none
      | some (ps, rest2) => some (p :: ps, rest2)

/-- Gob encoding of one `llm.Message`: role, length-prefixed parts, usage. -/
def gobEncodeMessage (m : Message) : List GobTok :=
  GobTok.nat (match m.Role with | MessageRole.assistant => 0 | MessageRole.user => 1)
    :: GobTok.nat m.Parts.length
    :: gobEncodeParts m.Parts
    ++ [GobTok.int m.Usage.InputTokens, GobTok.int m.Usage.OutputTokens,
        GobTok.int m.Usage.CacheCreationTokens, GobTok.int m.Usage.CacheReadTokens]

/-- Gob decoding of one `llm.Message`. -/
def gobDecodeMessage (toks : List GobTok) : Option (Message × List GobTok) :=
  match toks with
  | GobTok.nat r :: GobTok.nat n :: rest =>
    match (if r = 0 then some MessageRole.assistant
           else if r = 1 then some MessageRole.user else none) with
    | none => none
    | some role =>
      match gobDecodeParts n rest with
      | none => none
      | some (ps, rest2) =>
        match rest2 with
        | GobTok.int a :: GobTok.int b :: GobTok.int c :: GobTok.int d :: rest3 =>
          some (⟨role, ps, ⟨a, b, c, d⟩⟩, rest3)
        | _ => none
  | _ => none

/-- Gob encoding of a message list. -/
def gobEncodeMessageList : List Message → List GobTok
  | [] => []
  | m :: rest => gobEncodeMessage m ++ gobEncodeMessageList rest

/-- Gob decoding of `n` consecutive messages. -/
def gobDecodeMessageList : Nat → List GobTok → Option (List Message × List GobTok)
  | 0, toks => some ([], toks)
  | n + 1, toks =>
    match gobDecodeMessage toks with
    | none => none
    | some (m, rest) =>
      match gobDecodeMessageList n rest with
      | none => none
      | some (ms, rest2) => some (m :: ms, rest2)

/-- `encoder.Encode(agent.llmMessages)`: the slice is transmitted with its
length ahead of the elements. -/
def gobEncodeMessages (msgs : List Message) : List GobTok :=
  GobTok.nat msgs.length :: gobEncodeMessageList msgs

/-- `decoder.Decode(&agent.llmMessages)`: reads one `[]llm.Message` value from
the head of the stream; trailing data is not an error. -/
def gobDecodeMessages (toks : List GobTok) : Option (List Message) :=
  match toks with
  | GobTok.nat n :: rest =>
    match gobDecodeMessageList n rest with
    | none => none
    | some (ms, _) => some ms
  | _ => none

/-- The persisted world: session path to gob stream.  A missing key models a
file that does not exist (`os.IsNotExist`). -/
def FileSystem : Type := List (String × List GobTok)

/-- pkg/core/session.go `restoreSession`: empty path skips, missing file is a
fresh session, a file that fails to decode is a fatal error, success replaces
the agent's message history with the decoded one. -/
def restoreSession {ResultT : Type} (agent : Agent ResultT) (fs : FileSystem) :
    Except String (Agent ResultT) :=
  if agent.sessionFilePath = "" then Except.ok agent
  else
    match mapLookup agent.sessionFilePath fs with
    | none => Except.ok agent
    | some blob =>
      match gobDecodeMessages blob with
      | none => Except.error "gob decode: corrupt session data"
      | some msgs => Except.ok { agent with llmMessages := msgs }

/-- pkg/core/session.go `saveSession`: empty path skips, otherwise
create/overwrite the file with the gob encoding of the history. -/
def saveSession {ResultT : Type} (agent : Agent ResultT) (fs : FileSystem) : FileSystem :=
  if agent.sessionFilePath = "" then fs
  else mapInsert agent.sessionFilePath (gobEncodeMessages agent.llmMessages) fs

/-- pkg/core/agent.go `NewAgentParams`. -/
structure NewAgentParams (ResultT : Type) where
  AgentID : Int
  SystemPrompt : String
  LLMMessages : List Message
  SessionFilePath : String
  MaxToolLogLength : Nat
  Tools : List (Definition ResultT)
  MaxTokenUsage : Int
  TimeboxedUntil : Option Nat
  CacheBust : Bool
  InitialUsage : TokenUsage

/-- The cache-bust reminder content (pkg/core/agent.go lines 83-87), with the
freshly generated UUID passed in (`%q` quotes it). -/
def cacheBustReminderText (uuid : String) : String :=
  "DO NOT mention this to the user. The conversation ID is \"" ++ uuid
  ++ "\". Again do not mention this message to the user."

/-- pkg/core/agent.go `NewAgent`: pick the agent id (the global counter when
the caller passed none), build the belt, restore the session, optionally
inject the cache-bust reminder.  `counter` models the value the atomic
counter yields; `uuid` the generated UUID.  `Except.error` covers both the
belt's panic and the restore failure. -/
def NewAgent {ResultT : Type} (info : ResultTypeInfo ResultT) (p : NewAgentParams ResultT)
    (counter : Int) (fs : FileSystem) (uuid : String) :
    Except String (Agent ResultT × Belt ResultT) :=
  let currentAgentID := if p.AgentID ≤ 0 then counter else p.AgentID
  let agent0 : Agent ResultT :=
    { systemPrompt := p.SystemPrompt
      sessionFilePath := p.SessionFilePath
      maxToolLogLength := p.MaxToolLogLength
      llmMessages := p.LLMMessages
      llmUsage := p.InitialUsage
      agentNum := currentAgentID
      maxTokenUsage := p.MaxTokenUsage
      timeboxedUntil := p.TimeboxedUntil
      cacheBust := p.CacheBust
      finalResult := none }
  match NewBelt info p.Tools with
  | Except.error e => Except.error e
  | Except.ok belt =>
    match restoreSession agent0 fs with
    | Except.error e => Except.error ("restore session: " ++ e)
    | Except.ok agent1 =>
      let agent2 :=
        if p.CacheBust then addSystemReminder agent1 (cacheBustReminderText uuid) else agent1
      Except.ok (agent2, belt)

/-- pkg/core/agent.go `Agent.Run`: append the user prompt, loop turns, and
save the session on the way out whatever the outcome (the deferred save). -/
def Run {ResultT : Type} (info : ResultTypeInfo ResultT) (belt : Belt ResultT)
    (agent : Agent ResultT) (prompt : String) (envs : List TurnEnv) (fs : FileSystem) :
    Agent ResultT × FileSystem × RunOutcome ResultT :=
  let looped := runLoop info belt (addUserPrompt agent prompt) envs
  (looped.fst, saveSession looped.fst fs, looped.snd)

/-- src/unnamed/part_001 `Base` (the model handle and logger are external
collaborators; `llmUsage` is the mutex-guarded shared aggregator — mutual
exclusion itself is a scheduling fact outside this sequential model). -/
structure Base where
  MaxToolLogLength : Nat
  CacheBust : Bool
  SessionFilePath : String
  MaxTokenUsage : Int
  Timebox : Nat
  llmUsage : TokenUsage
deriving Repr

/-- src/unnamed/part_001 `RunMeta`. -/
structure RunMeta where
  AgentID : Int
  Usage : TokenUsage
  Messages : List Message
deriving Repr

/-- src/unnamed/part_001 `RunParams`. -/
structure RunParams (ResultT : Type) where
  Prompt : String
  System : String
  Tools : List (Definition ResultT)
  PreviousMeta : RunMeta

/-- src/unnamed/part_001 `Base.addUsage` (under the mutex in Go). -/
def Base.addUsage (b : Base) (u : TokenUsage) : Base :=
  { b with llmUsage := b.llmUsage.add u }

/-- src/unnamed/part_001 `Base.LLMUsage`. -/
def Base.LLMUsage (b : Base) : TokenUsage := b.llmUsage

/-- The caller-visible outcome of the `Run` façade. -/
inductive FacadeOutcome (ResultT : Type) where
  | success (data : ResultT) (meta : RunMeta) : FacadeOutcome ResultT
  | failure (msg : String) : FacadeOutcome ResultT
  | outOfScript : FacadeOutcome ResultT

/-- The absolute timebox deadline the façade computes from the relative
duration (src/unnamed/part_001 lines 51-54): zero duration means no deadline. -/
def facadeTimebox (b : Base) (now0 : Nat) : Option Nat :=
  if 0 < b.Timebox then some (now0 + b.Timebox) else none

/-- The `NewAgentParams` the façade passes to `core.NewAgent`
(src/unnamed/part_001 lines 55-68). -/
def facadeAgentParams {ResultT : Type} (b : Base) (p : RunParams ResultT)
    (now0 : Nat) : NewAgentParams ResultT :=
  { AgentID := p.PreviousMeta.AgentID
    SystemPrompt := p.System
    LLMMessages := p.PreviousMeta.Messages
    SessionFilePath := b.SessionFilePath
    MaxToolLogLength := b.MaxToolLogLength
    Tools := p.Tools
    MaxTokenUsage := b.MaxTokenUsage - b.LLMUsage.Total
    TimeboxedUntil := facadeTimebox b now0
    CacheBust := b.CacheBust
    InitialUsage := p.PreviousMeta.Usage }

/-- src/unnamed/part_001 `Run` (the façade; provider construction is an
external collaborator modelled as always succeeding): compute the timebox
deadline, construct the agent from `PreviousMeta`, run it, and add the usage
delta beyond `PreviousMeta` into the shared aggregator — which the code does
only when the agent returned a non-nil result, i.e. on success. -/
def RunFacade {ResultT : Type} (info : ResultTypeInfo ResultT) (b : Base)
    (p : RunParams ResultT) (now0 : Nat) (uuid : String) (fs : FileSystem)
    (counter : Int) (envs : List TurnEnv) : Base × FacadeOutcome ResultT :=
  match NewAgent info (facadeAgentParams b p now0) counter fs uuid with
  | Except.error e => (b, FacadeOutcome.failure ("new agent: " ++ e))
  | Except.ok (agent, belt) =>
    match Run info belt agent p.Prompt envs fs with
    | (_, _, RunOutcome.outOfScript) => (b, FacadeOutcome.outOfScript)
    | (_, _, RunOutcome.failure e) => (b, FacadeOutcome.failure ("run agent: " ++ e))
    | (agentF, _, RunOutcome.success data totalUsage messages) =>
      let additionalUsage := totalUsage.sub p.PreviousMeta.Usage
      let b2 := b.addUsage additionalUsage
      (b2, FacadeOutcome.success data ⟨agentF.agentNum, totalUsage, messages⟩)

/-! Concrete instances used by the claim theorems, witnesses and
counterexamples. -/

/-- Models `json.Unmarshal` into a fresh Go `int`: integral JSON numbers
decode, JSON null leaves the zero value, anything else is a type error. -/
def unmarshalInt : Json → Except String Int
  | Json.num n => Except.ok n
  | Json.null => Except.ok 0
  | _ => Except.error "json: cannot unmarshal value into Go value of type int"

/-- The result-type model for an agent declared over Go `int` — a primitive
(non-struct) result type. -/
def intResultInfo : ResultTypeInfo Int :=
  { kind := GoKind.int, zero := 0, unmarshal := unmarshalInt }

/-- The result-type model for an agent declared over a Go interface type
(e.g. `any`): the zero value is a nil interface with no concrete dynamic
type.  The carrier and decoder are irrelevant to the construction-time check. -/
def anyResultInfo : ResultTypeInfo Unit :=
  { kind := GoKind.interface, zero := (),
    unmarshal := fun _ => Except.error "unused" }

/-- The reserved final-result registry entry for the `int` result type. -/
def finalResultDefInt : Definition Int :=
  ⟨FinalResultToolName, finalResultDescription, GenerateSchemaEnvelope GoKind.int,
   UseFn.finalResultFn⟩

/-- The belt `NewBelt` builds for the `int` result type with no caller tools. -/
def beltInt : Belt Int := ⟨[(FinalResultToolName, finalResultDefInt)]⟩

/-- A fresh `int`-resulted agent with no budget, no timebox, no session. -/
def agentInt0 : Agent Int :=
  { systemPrompt := "sys", sessionFilePath := "", maxToolLogLength := 100,
    llmMessages := [], llmUsage := TokenUsage.zero, agentNum := 1,
    maxTokenUsage := 0, timeboxedUntil := none, cacheBust := false,
    finalResult := none }

/-- An assistant message that immediately calls `FinalResult` with the
primitive payload `{response: 42}`. -/
def finalCallMessage : Message :=
  ⟨MessageRole.assistant,
   [ContentPart.toolCall "call_1" FinalResultToolName
      (Json.obj [("response", Json.num 42)])],
   ⟨3, 5, 0, 0⟩⟩

/-- The scripted turn for the immediate-final-result run. -/
def envFinal : TurnEnv := ⟨Except.ok finalCallMessage, [0], 0, 0⟩

/-- An assistant turn requesting two tool calls, used to observe result
ordering under out-of-order completion. -/
def cexMessage : Message :=
  ⟨MessageRole.assistant,
   [ContentPart.toolCall "id1" "t1" Json.null, ContentPart.toolCall "id2" "t2" Json.null],
   ⟨1, 1, 0, 0⟩⟩

/-- A scripted turn in which the second dispatched call completes first. -/
def cexEnv : TurnEnv := ⟨Except.ok cexMessage, [1, 0], 0, 0⟩

/-- A façade base with a 5-token total ceiling and no timebox or session. -/
def baseB : Base :=
  { MaxToolLogLength := 100, CacheBust := false, SessionFilePath := "",
    MaxTokenUsage := 5, Timebox := 0, llmUsage := TokenUsage.zero }

/-- Façade parameters with no previous conversation. -/
def paramsB : RunParams Int :=
  { Prompt := "p", System := "s", Tools := [], PreviousMeta := ⟨0, TokenUsage.zero, []⟩ }

/-- The agent `RunFacade` constructs from `baseB`/`paramsB` with counter 7. -/
def agentB : Agent Int :=
  { systemPrompt := "s", sessionFilePath := "", maxToolLogLength := 100,
    llmMessages := [], llmUsage := TokenUsage.zero, agentNum := 7,
    maxTokenUsage := 5, timeboxedUntil := none, cacheBust := false,
    finalResult := none }

/-- The tool-call-id field of a tool result, the correlation key
(`ToolResult.ToolCallID`); other variants yield the empty string. -/
def resultCallID : ContentPart → String
  | ContentPart.toolResult cid _ _ _ => cid
  | _ => ""

/-! Helper lemmas shared by the claim theorems. -/

theorem mapLookup_mapInsert {α : Type} (k k2 : String) (v : α) (m : List (String × α)) :
    mapLookup k (mapInsert k2 v m) = if k2 = k then some v else mapLookup k m := by
  induction m with
  | nil => simp [mapInsert, mapLookup]
  | cons hd tl ih =>
    obtain ⟨k3, v3⟩ := hd
    by_cases h3 : k3 = k2
    · subst h3
      simp only [mapInsert, if_pos rfl, mapLookup]
      by_cases h : k3 = k
      · subst h; simp [mapLookup]
      · simp [mapLookup, h]
    · simp only [mapInsert, if_neg h3, mapLookup]
      by_cases h : k3 = k
      · subst h
        have hne : ¬(k2 = k3) := fun heq => h3 heq.symm
        simp [mapLookup, hne]
      · simp [mapLookup, h, ih]

theorem mapLookup_foldl_insert_ne {α : Type} [Inhabited α] (key : String)
    (name : α → String) (tools : List α) :
    ∀ m0 : List (String × α), (∀ d ∈ tools, name d ≠ key) →
      mapLookup key (tools.foldl (fun m d => mapInsert (name d) d m) m0) =
        mapLookup key m0 := by
  induction tools with
  | nil => intro m0 _; rfl
  | cons hd tl ih =>
    intro m0 hne
    have h1 : name hd ≠ key := hne hd (List.mem_cons_self hd tl)
    have h2 : ∀ d ∈ tl, name d ≠ key := fun d hd2 => hne d (List.mem_cons_of_mem hd hd2)
    simp only [List.foldl_cons]
    rw [ih (mapInsert (name hd) hd m0) h2, mapLookup_mapInsert, if_neg h1]

theorem mapLookup_foldl_insert_isSome {α : Type} (key : String)
    (name : α → String) (tools : List α) :
    ∀ m0 : List (String × α), (mapLookup key m0).isSome →
      (mapLookup key (tools.foldl (fun m d => mapInsert (name d) d m) m0)).isSome := by
  induction tools with
  | nil => intro m0 h; exact h
  | cons hd tl ih =>
    intro m0 h
    simp only [List.foldl_cons]
    apply ih
    rw [mapLookup_mapInsert]
    by_cases heq : name hd = key
    · simp [heq]
    · simp [heq, h]

theorem reflectTypeOfZero_ne_interface (k : GoKind) (h : k ≠ GoKind.interface) :
    reflectTypeOfZero k = some k := by
  cases k <;> first | rfl | exact absurd rfl h

/-- C10: constructing an agent's tool registry for a declared result type
whose zero value has no concrete dynamic type (an interface kind) panics
inside `structResultType` — `reflect.TypeOf` of the zero value is nil before
`Kind()` is called — and the panic propagates out of agent construction;
construction succeeds for every kind whose zero value carries a concrete
type. -/
theorem structResultType_of_interface (k : GoKind) (h : k = GoKind.interface) :
    structResultType k = Except.error nilKindPanicText := by
  rw [h]; rfl

theorem NewBelt_error_of_interface {ResultT : Type} (info : ResultTypeInfo ResultT)
    (tools : List (Definition ResultT)) (h : info.kind = GoKind.interface) :
    NewBelt info tools = Except.error nilKindPanicText := by
  unfold NewBelt
  rw [structResultType_of_interface info.kind h]

theorem C10_interface_result_type_panics :
    (∀ (ResultT : Type) (info : ResultTypeInfo ResultT) (tools : List (Definition ResultT)),
      info.kind = GoKind.interface →
        reflectTypeOfZero info.kind = none ∧
        structResultType info.kind = Except.error nilKindPanicText ∧
        NewBelt info tools = Except.error nilKindPanicText) ∧
    (∀ (ResultT : Type) (info : ResultTypeInfo ResultT) (p : NewAgentParams ResultT)
        (counter : Int) (fs : FileSystem) (uuid : String),
      info.kind = GoKind.interface →
        NewAgent info p counter fs uuid = Except.error nilKindPanicText) ∧
    (∀ (ResultT : Type) (info : ResultTypeInfo ResultT) (tools : List (Definition ResultT)),
      info.kind ≠ GoKind.interface → ∃ b, NewBelt info tools = Except.ok b) := by
  refine ⟨?_, ?_, ?_⟩
  · intro ResultT info tools h
    exact ⟨by rw [h]; rfl, structResultType_of_interface info.kind h,
      NewBelt_error_of_interface info tools h⟩
  · intro ResultT info p counter fs uuid h
    unfold NewAgent
    rw [NewBelt_error_of_interface info p.Tools h]
  · intro ResultT info tools h
    have hz := reflectTypeOfZero_ne_interface info.kind h
    simp only [NewBelt, structResultType, hz]
    exact ⟨_, rfl⟩

/-- C10 witness: the interface-kind construction fails concretely, the
`int`-kind construction succeeds concretely. -/
theorem C10_witness :
    NewBelt anyResultInfo [] = Except.error nilKindPanicText ∧
    (∃ b, NewBelt intResultInfo [] = Except.ok b) :=
  ⟨(C10_interface_result_type_panics.1 Unit anyResultInfo [] rfl).2.2,
   C10_interface_result_type_panics.2.2 Int intResultInfo [] (by decide)⟩

/-- A caller-supplied tool that reuses the reserved final-result name. -/
def hijackDef : Definition Int :=
  ⟨FinalResultToolName, "hijack", JsonSchema.nilSchema,
   UseFn.pure (fun _ => Except.ok "hijacked")⟩

/-- C1 counterexample: registering a caller-supplied tool named `FinalResult`
replaces the reserved entry in the registry map (last registration wins);
resolving the name then invokes the caller's tool — the final-result slot is
left untouched and the caller tool's output is returned — whereas the
reserved entry would have stored the decoded payload. -/
theorem C1_counterexample :
    NewBelt intResultInfo [hijackDef] =
      Except.ok ⟨[(FinalResultToolName, hijackDef)]⟩ ∧
    UseTool intResultInfo ⟨[(FinalResultToolName, hijackDef)]⟩ none FinalResultToolName
      (Json.obj [("response", Json.num 42)]) = (none, Except.ok "hijacked") ∧
    UseTool intResultInfo beltInt none FinalResultToolName
      (Json.obj [("response", Json.num 42)]) =
      (some 42, Except.ok "Final result processed.") :=
  ⟨rfl, rfl, rfl⟩

theorem NewBelt_lookup_final (ResultT : Type) (info : ResultTypeInfo ResultT)
    (tools : List (Definition ResultT)) (belt : Belt ResultT) (isStruct : Bool)
    (hstruct : structResultType info.kind = Except.ok isStruct)
    (hbelt : NewBelt info tools = Except.ok belt) :
    (mapLookup FinalResultToolName belt.toolDefinitions).isSome ∧
    ((∀ d ∈ tools, d.Name ≠ FinalResultToolName) →
      mapLookup FinalResultToolName belt.toolDefinitions =
        some ⟨FinalResultToolName, finalResultDescription,
          if isStruct then GenerateSchemaFor info.kind else GenerateSchemaEnvelope info.kind,
          UseFn.finalResultFn⟩) := by
  have hb : belt.toolDefinitions =
      tools.foldl (fun m d => mapInsert d.Name d m)
        (mapInsert FinalResultToolName
          ⟨FinalResultToolName, finalResultDescription,
            if isStruct then GenerateSchemaFor info.kind else GenerateSchemaEnvelope info.kind,
            UseFn.finalResultFn⟩ []) := by
    have := hbelt
    simp only [NewBelt, hstruct] at this
    cases this
    rfl
  constructor
  · rw [hb]
    apply mapLookup_foldl_insert_isSome
    rw [mapLookup_mapInsert]
    simp
  · intro hne
    rw [hb]
    haveI : Inhabited (Definition ResultT) :=
      ⟨⟨"", "", JsonSchema.nilSchema, UseFn.finalResultFn⟩⟩
    rw [mapLookup_foldl_insert_ne FinalResultToolName Definition.Name tools _ hne,
      mapLookup_mapInsert, if_pos rfl]

/-- C1 (amended): an entry under the name `FinalResult` is always present in
a freshly built registry, and whenever no caller-supplied tool uses that
name, resolving `FinalResult` yields the reserved final-result entry; a
caller-supplied tool named `FinalResult`, however, overrides the reserved
entry (last registration for the name wins). -/
theorem C1_final_result_entry (ResultT : Type) (info : ResultTypeInfo ResultT)
    (tools : List (Definition ResultT)) (belt : Belt ResultT) (isStruct : Bool)
    (hstruct : structResultType info.kind = Except.ok isStruct)
    (hbelt : NewBelt info tools = Except.ok belt) :
    (mapLookup FinalResultToolName belt.toolDefinitions).isSome ∧
    ((∀ d ∈ tools, d.Name ≠ FinalResultToolName) →
      mapLookup FinalResultToolName belt.toolDefinitions =
        some ⟨FinalResultToolName, finalResultDescription,
          if isStruct then GenerateSchemaFor info.kind else GenerateSchemaEnvelope info.kind,
          UseFn.finalResultFn⟩) :=
  NewBelt_lookup_final ResultT info tools belt isStruct hstruct hbelt

/-- C1 witness: the `int`-kind registry with one innocuous caller tool
resolves `FinalResult` to the reserved entry with the envelope schema. -/
theorem C1_witness :
    (mapLookup FinalResultToolName beltInt.toolDefinitions).isSome ∧
    mapLookup FinalResultToolName beltInt.toolDefinitions =
      some ⟨FinalResultToolName, finalResultDescription,
        GenerateSchemaEnvelope GoKind.int, UseFn.finalResultFn⟩ := by
  have h := C1_final_result_entry Int intResultInfo [] beltInt false rfl rfl
  exact ⟨h.1, h.2 (by intro d hd; cases hd)⟩

/-- C8: a failing tool invocation, and likewise a request naming a tool
absent from the registry, never aborts the run: `useTool` folds either into a
`ToolResult` whose is-error flag is set and whose content carries the error
text, and `runTurn` returns an error only for a provider failure or a budget
failure — never for a tool failure. -/
theorem C8_tool_errors_not_fatal :
    (∀ (ResultT : Type) (info : ResultTypeInfo ResultT) (belt : Belt ResultT)
        (now : Nat) (agent : Agent ResultT) (t : toolUseParams),
      timeboxExpired agent now = false →
      mapLookup t.Name belt.toolDefinitions = none →
      useTool info belt now agent t =
        (agent, ContentPart.toolResult t.ID t.Name ("unknown tool: " ++ t.Name) true)) ∧
    (∀ (ResultT : Type) (info : ResultTypeInfo ResultT) (belt : Belt ResultT)
        (now : Nat) (agent : Agent ResultT) (t : toolUseParams)
        (d : Definition ResultT) (f : Json → Except String String) (e : String),
      timeboxExpired agent now = false →
      mapLookup t.Name belt.toolDefinitions = some d →
      d.UseFunc = UseFn.pure f →
      f t.Input = Except.error e →
      useTool info belt now agent t =
        (agent, ContentPart.toolResult t.ID t.Name e true)) ∧
    (∀ (ResultT : Type) (info : ResultTypeInfo ResultT) (belt : Belt ResultT)
        (env : TurnEnv) (agent : Agent ResultT) (e : String),
      (runTurn info belt env agent).result = Except.error e →
        (∃ m, env.reply = Except.error m ∧ e = "new llm message: " ++ m) ∨
        (∃ s, e = "update usage: " ++ s)) := by
  refine ⟨?_, ?_, ?_⟩
  · intro ResultT info belt now agent t hbox hlook
    simp only [useTool, hbox, Bool.false_eq_true, false_and, if_false, UseTool, hlook]
  · intro ResultT info belt now agent t d f e hbox hlook hfn hfail
    simp only [useTool, hbox, Bool.false_eq_true, false_and, if_false, UseTool, hlook, hfn, hfail]
  · intro ResultT info belt env agent e herr
    simp only [runTurn] at herr
    cases hreply : env.reply with
    | error m =>
      rw [hreply] at herr
      simp only at herr
      exact Or.inl ⟨m, rfl, ((Except.error.injEq _ _).mp herr).symm⟩
    | ok message =>
      rw [hreply] at herr
      simp only at herr
      cases hupd : (updateUsage
          { (if timeboxExpired agent env.nowStart then
              addSystemReminder agent timeboxReminderText else agent) with
            llmMessages := (if timeboxExpired agent env.nowStart then
              addSystemReminder agent timeboxReminderText else agent).llmMessages
              ++ [message] } message.Usage).snd with
      | some s =>
        rw [hupd] at herr
        simp only at herr
        exact Or.inr ⟨s, ((Except.error.injEq _ _).mp herr).symm⟩
      | none =>
        rw [hupd] at herr
        simp only at herr
        cases herr

theorem useTool_fst_messages {ResultT : Type} (info : ResultTypeInfo ResultT)
    (belt : Belt ResultT) (now : Nat) (agent : Agent ResultT) (t : toolUseParams) :
    (useTool info belt now agent t).fst.llmMessages = agent.llmMessages := by
  unfold useTool
  split
  · rfl
  · split <;> rfl

theorem useTool_snd_shape {ResultT : Type} (info : ResultTypeInfo ResultT)
    (belt : Belt ResultT) (now : Nat) (agent : Agent ResultT) (t : toolUseParams) :
    ∃ c b, (useTool info belt now agent t).snd = ContentPart.toolResult t.ID t.Name c b := by
  unfold useTool
  split
  · exact ⟨_, _, rfl⟩
  · split <;> exact ⟨_, _, rfl⟩

theorem dispatchTools_fst_messages {ResultT : Type} (info : ResultTypeInfo ResultT)
    (belt : Belt ResultT) (now : Nat) (l : List toolUseParams) :
    ∀ agent : Agent ResultT,
      (dispatchTools info belt now agent l).fst.llmMessages = agent.llmMessages := by
  induction l with
  | nil => intro agent; rfl
  | cons t rest ih =>
    intro agent
    simp only [dispatchTools]
    rw [ih, useTool_fst_messages]

theorem dispatchTools_snd_ids {ResultT : Type} (info : ResultTypeInfo ResultT)
    (belt : Belt ResultT) (now : Nat) (l : List toolUseParams) :
    ∀ agent : Agent ResultT,
      ((dispatchTools info belt now agent l).snd).map resultCallID =
        l.map toolUseParams.ID := by
  induction l with
  | nil => intro agent; rfl
  | cons t rest ih =>
    intro agent
    simp only [dispatchTools, List.map_cons]
    obtain ⟨c, b, h⟩ := useTool_snd_shape info belt now agent t
    rw [h, ih]
    rfl

theorem dispatchTools_snd_length {ResultT : Type} (info : ResultTypeInfo ResultT)
    (belt : Belt ResultT) (now : Nat) (l : List toolUseParams) (agent : Agent ResultT) :
    ((dispatchTools info belt now agent l).snd).length = l.length := by
  have h := dispatchTools_snd_ids info belt now l agent
  have h2 := congrArg List.length h
  simpa using h2

/-- `updateUsage` mutates only the usage counters. -/
theorem updateUsage_fst {ResultT : Type} (a : Agent ResultT) (u : TokenUsage) :
    (updateUsage a u).fst = { a with llmUsage := a.llmUsage.add u } := by
  unfold updateUsage
  simp only []
  split
  · split <;> rfl
  · rfl

/-- C5: a turn that begins after a set timebox deadline offers only the
final-result tool to the backend and appends exactly one timebox reminder to
history before the provider reply; and during dispatch every requested call
not named `FinalResult` is answered with the synthetic error-flagged result
without invoking any registered tool (the result does not depend on the
registry contents). -/
theorem C5_timebox_policy (ResultT : Type) (info : ResultTypeInfo ResultT)
    (belt : Belt ResultT) (agent : Agent ResultT) (env : TurnEnv) (d : Nat)
    (message : Message)
    (h1 : agent.timeboxedUntil = some d) (h2 : d < env.nowStart)
    (h4 : env.reply = Except.ok message) :
    (runTurn info belt env agent).offered = [belt.FinalResultDefinition] ∧
    (∃ tail, (runTurn info belt env agent).agent.llmMessages =
      agent.llmMessages ++ systemReminderMessage timeboxReminderText :: message :: tail) ∧
    (∀ (agent2 : Agent ResultT) (t : toolUseParams),
      timeboxExpired agent2 env.nowDispatch = true →
      t.Name ≠ FinalResultToolName →
      useTool info belt env.nowDispatch agent2 t =
        (agent2, ContentPart.toolResult t.ID t.Name "timebox expired, cannot use tool" true)) := by
  have hexp : timeboxExpired agent env.nowStart = true := by
    simp only [timeboxExpired, h1, decide_eq_true_eq]
    exact h2
  refine ⟨?_, ?_, ?_⟩
  · simp only [runTurn, hexp, if_true, h4]
    split
    · rfl
    · dsimp only
  · simp only [runTurn, hexp, if_true, h4]
    split
    · rename_i e heq
      refine ⟨[], ?_⟩
      simp [updateUsage_fst, addSystemReminder, systemReminderMessage]
    · rename_i heq
      dsimp only
      generalize hD : dispatchTools info belt env.nowDispatch
        ((updateUsage
          { addSystemReminder agent timeboxReminderText with
            llmMessages := (addSystemReminder agent timeboxReminderText).llmMessages
              ++ [message] } message.Usage).fst)
        (env.completion.filterMap
          (fun i => (extractToolUses message.Parts).get? i)) = D
      have hDm : D.fst.llmMessages =
          agent.llmMessages ++ [systemReminderMessage timeboxReminderText] ++ [message] := by
        rw [← hD, dispatchTools_fst_messages, updateUsage_fst]
        simp [addSystemReminder]
      by_cases hpos : 0 < D.snd.length
      · rw [if_pos hpos]
        exact ⟨[NewUserMessage D.snd], by simp [hDm]⟩
      · rw [if_neg hpos]
        exact ⟨[], by simp [hDm]⟩
  · intro agent2 t hbox hname
    simp only [useTool, hbox, hname, and_true, ne_eq, not_false_iff, if_true]

/-- A timeboxed agent whose deadline (instant 5) has passed. -/
def agentTB : Agent Int := { agentInt0 with timeboxedUntil := some 5 }

/-- A plain text assistant reply. -/
def msgText : Message := ⟨MessageRole.assistant, [ContentPart.text "ok"], ⟨1, 0, 0, 0⟩⟩

/-- A scripted turn taking place at instant 10, past the deadline. -/
def envTB : TurnEnv := ⟨Except.ok msgText, [], 10, 10⟩

/-- C5 witness: concrete expired-timebox turn. -/
theorem C5_witness :
    (runTurn intResultInfo beltInt envTB agentTB).offered = [beltInt.FinalResultDefinition] ∧
    (∃ tail, (runTurn intResultInfo beltInt envTB agentTB).agent.llmMessages =
      agentTB.llmMessages ++ systemReminderMessage timeboxReminderText :: msgText :: tail) ∧
    useTool intResultInfo beltInt 10 agentTB ⟨"i", "x", Json.null⟩ =
      (agentTB, ContentPart.toolResult "i" "x" "timebox expired, cannot use tool" true) := by
  have h := C5_timebox_policy Int intResultInfo beltInt agentTB envTB 5 msgText rfl
    (by decide) rfl
  exact ⟨h.1, h.2.1, h.2.2 agentTB ⟨"i", "x", Json.null⟩ rfl (by decide)⟩

theorem gobDecodePart_encode (p : ContentPart) (rest : List GobTok) :
    gobDecodePart (gobEncodePart p ++ rest) = some (p, rest) := by
  cases p <;> rfl

theorem gobDecodeParts_encode (ps : List ContentPart) :
    ∀ rest : List GobTok,
      gobDecodeParts ps.length (gobEncodeParts ps ++ rest) = some (ps, rest) := by
  induction ps with
  | nil => intro rest; rfl
  | cons p ps ih =>
    intro rest
    simp only [gobEncodeParts, List.length_cons, List.append_assoc, gobDecodeParts,
      gobDecodePart_encode, ih]

theorem gobDecodeMessage_encode (m : Message) (rest : List GobTok) :
    gobDecodeMessage (gobEncodeMessage m ++ rest) = some (m, rest) := by
  obtain ⟨role, parts, usage⟩ := m
  obtain ⟨a, b, c, d2⟩ := usage
  cases role <;>
    simp only [gobEncodeMessage, gobDecodeMessage, List.cons_append, List.append_assoc,
      List.singleton_append, gobDecodeParts_encode] <;>
    rfl

theorem gobDecodeMessageList_encode (msgs : List Message) :
    ∀ rest : List GobTok,
      gobDecodeMessageList msgs.length (gobEncodeMessageList msgs ++ rest) =
        some (msgs, rest) := by
  induction msgs with
  | nil => intro rest; rfl
  | cons m msgs ih =>
    intro rest
    simp only [gobEncodeMessageList, List.length_cons, List.append_assoc, gobDecodeMessageList,
      gobDecodeMessage_encode, ih]

theorem gobDecodeMessages_encode (msgs : List Message) :
    gobDecodeMessages (gobEncodeMessages msgs) = some msgs := by
  have h := gobDecodeMessageList_encode msgs []
  rw [List.append_nil] at h
  simp only [gobEncodeMessages, gobDecodeMessages, h]

/-- C9: saving any message history to a session path and restoring from that
path yields exactly the original history (equal roles, part order, part
content and variant tags, by structural equality); restoring when no file
exists at the path is not an error and leaves the history unchanged; a file
that exists but fails to decode is a fatal error. -/
theorem C9_session_roundtrip :
    (∀ (ResultT : Type) (agent agent2 : Agent ResultT) (fs : FileSystem),
      agent2.sessionFilePath = agent.sessionFilePath →
      agent.sessionFilePath ≠ "" →
      restoreSession agent2 (saveSession agent fs) =
        Except.ok { agent2 with llmMessages := agent.llmMessages }) ∧
    (∀ (ResultT : Type) (agent : Agent ResultT) (fs : FileSystem),
      mapLookup agent.sessionFilePath fs = none →
      restoreSession agent fs = Except.ok agent) ∧
    (∀ (ResultT : Type) (agent : Agent ResultT) (fs : FileSystem) (blob : List GobTok),
      agent.sessionFilePath ≠ "" →
      mapLookup agent.sessionFilePath fs = some blob →
      gobDecodeMessages blob = none →
      restoreSession agent fs = Except.error "gob decode: corrupt session data") := by
  refine ⟨?_, ?_, ?_⟩
  · intro ResultT agent agent2 fs hpath hne
    have hne2 : agent2.sessionFilePath ≠ "" := by rw [hpath]; exact hne
    simp only [restoreSession, saveSession, hpath, if_neg hne, if_neg hne2,
      mapLookup_mapInsert]
    simp [gobDecodeMessages_encode]
  · intro ResultT agent fs hlook
    by_cases hpath : agent.sessionFilePath = ""
    · simp only [restoreSession, if_pos hpath]
    · simp only [restoreSession, if_neg hpath, hlook]
  · intro ResultT agent fs blob hne hlook hdec
    simp only [restoreSession, if_neg hne, hlook, hdec]

/-- A history exercising every content-part variant and both roles. -/
def historyAll : List Message :=
  [NewUserMessage [ContentPart.text "hi"],
   ⟨MessageRole.assistant,
    [ContentPart.text "reading",
     ContentPart.toolCall "c1" "read" (Json.obj [("path", Json.str "a.txt")])],
    ⟨7, 2, 1, 0⟩⟩,
   NewUserMessage [ContentPart.toolResult "c1" "read" "contents" false],
   ⟨MessageRole.assistant, [ContentPart.toolCall "c2" "read" Json.null], ⟨9, 3, 0, 5⟩⟩,
   NewUserMessage [ContentPart.toolResult "c2" "read" "EOF" true]]

/-- An agent owning `historyAll` with a session path configured. -/
def agentSess : Agent Int :=
  { agentInt0 with sessionFilePath := "session.gob", llmMessages := historyAll }

/-- C9 witness: the concrete all-variant history round-trips through a save
and restore; a missing file restores to the unchanged agent; a corrupt blob
is a fatal decode error. -/
theorem C9_witness :
    restoreSession agentSess (saveSession agentSess []) =
      Except.ok agentSess ∧
    restoreSession agentSess [] = Except.ok agentSess ∧
    restoreSession agentSess [("session.gob", [GobTok.bool true])] =
      Except.error "gob decode: corrupt session data" := by
  refine ⟨?_, ?_, ?_⟩
  · have h := C9_session_roundtrip.1 Int agentSess agentSess [] rfl (by decide)
    simpa using h
  · exact C9_session_roundtrip.2.1 Int agentSess [] rfl
  · exact C9_session_roundtrip.2.2 Int agentSess [("session.gob", [GobTok.bool true])]
      [GobTok.bool true] (by decide) rfl rfl

/-- A failing caller-supplied tool. -/
def failDef : Definition Int :=
  ⟨"boom", "always fails", JsonSchema.nilSchema,
   UseFn.pure (fun _ => Except.error "kaput")⟩

/-- A registry holding the reserved entry and the failing tool. -/
def beltFail : Belt Int :=
  ⟨[(FinalResultToolName, finalResultDefInt), ("boom", failDef)]⟩

/-- A scripted turn whose provider call fails terminally. -/
def envErr : TurnEnv := ⟨Except.error "offline", [], 0, 0⟩

/-- C8 witness: concrete unknown-tool and failing-tool results, and a
concrete provider failure as the only source of a turn error. -/
theorem C8_witness :
    useTool intResultInfo beltInt 0 agentInt0 ⟨"i", "nope", Json.null⟩ =
      (agentInt0, ContentPart.toolResult "i" "nope" "unknown tool: nope" true) ∧
    useTool intResultInfo beltFail 0 agentInt0 ⟨"i", "boom", Json.null⟩ =
      (agentInt0, ContentPart.toolResult "i" "boom" "kaput" true) ∧
    ((∃ m, envErr.reply = Except.error m ∧
        "new llm message: offline" = "new llm message: " ++ m) ∨
     (∃ s, "new llm message: offline" = "update usage: " ++ s)) := by
  refine ⟨?_, ?_, ?_⟩
  · exact C8_tool_errors_not_fatal.1 Int intResultInfo beltInt 0 agentInt0
      ⟨"i", "nope", Json.null⟩ rfl rfl
  · exact C8_tool_errors_not_fatal.2.1 Int intResultInfo beltFail 0 agentInt0
      ⟨"i", "boom", Json.null⟩ failDef (fun _ => Except.error "kaput") "kaput" rfl rfl rfl rfl
  · exact C8_tool_errors_not_fatal.2.2 Int intResultInfo beltInt envErr agentInt0
      "new llm message: offline" rfl

/-- C4: every returned assistant message's usage is folded componentwise into
the cumulative usage (also when the ceiling is then exceeded); the budget
error fires exactly when the configured ceiling is positive and the new
cumulative total exceeds it (a ceiling of 0 means unlimited); the offending
turn's usage is recorded in the agent before the run fails; and a failing
turn makes the loop stop with the wrapped error no matter how many further
scripted turns remain. -/
theorem C4_budget_enforcement :
    (∀ (ResultT : Type) (agent : Agent ResultT) (u : TokenUsage),
      ((updateUsage agent u).fst).llmUsage = agent.llmUsage.add u) ∧
    (∀ (ResultT : Type) (agent : Agent ResultT) (u : TokenUsage),
      (updateUsage agent u).snd =
        (if 0 < agent.maxTokenUsage ∧ agent.maxTokenUsage < (agent.llmUsage.add u).Total
         then some ("maximum token usage exceeded: "
            ++ toString (agent.llmUsage.add u).Total ++ " > " ++ toString agent.maxTokenUsage)
         else none)) ∧
    (∀ (ResultT : Type) (info : ResultTypeInfo ResultT) (belt : Belt ResultT)
        (env : TurnEnv) (agent : Agent ResultT) (message : Message) (e : String),
      env.reply = Except.ok message →
      (runTurn info belt env agent).result = Except.error ("update usage: " ++ e) →
      (runTurn info belt env agent).agent.llmUsage = agent.llmUsage.add message.Usage) ∧
    (∀ (ResultT : Type) (info : ResultTypeInfo ResultT) (belt : Belt ResultT)
        (agent : Agent ResultT) (env : TurnEnv) (rest : List TurnEnv) (e : String),
      (runTurn info belt env agent).result = Except.error e →
      runLoop info belt agent (env :: rest) =
        ((runTurn info belt env agent).agent, RunOutcome.failure ("run turn: " ++ e))) := by
  refine ⟨?_, ?_, ?_, ?_⟩
  · intro ResultT agent u
    rw [updateUsage_fst]
  · intro ResultT agent u
    unfold updateUsage
    simp only []
    split_ifs with h1 h2 h3 <;> (simp_all [TokenUsage.add, TokenUsage.Total]; try omega)
  · intro ResultT info belt env agent message e hreply herr
    simp only [runTurn, hreply] at herr ⊢
    split at herr
    · rename_i s heq
      simp only []
      rw [updateUsage_fst]
      by_cases hexp : timeboxExpired agent env.nowStart <;> simp [hexp, addSystemReminder]
    · simp at herr
  · intro ResultT info belt agent env rest e herr
    simp only [runLoop]
    rw [herr]

/-- An agent with a total-token ceiling of 5. -/
def agentBudget : Agent Int := { agentInt0 with maxTokenUsage := 5 }

/-- C4 witness: the turn with usage (3,5,0,0) against ceiling 5 records the
usage and fails the loop with the budget error, regardless of remaining
scripted turns (here none). -/
theorem C4_witness :
    ((updateUsage agentBudget (⟨3, 5, 0, 0⟩ : TokenUsage)).fst).llmUsage =
      TokenUsage.add TokenUsage.zero ⟨3, 5, 0, 0⟩ ∧
    (runTurn intResultInfo beltInt envFinal agentBudget).agent.llmUsage =
      TokenUsage.add TokenUsage.zero ⟨3, 5, 0, 0⟩ ∧
    runLoop intResultInfo beltInt agentBudget [envFinal] =
      ((runTurn intResultInfo beltInt envFinal agentBudget).agent,
        RunOutcome.failure ("run turn: update usage: maximum token usage exceeded: 8 > 5")) := by
  refine ⟨C4_budget_enforcement.1 Int agentBudget _, ?_, ?_⟩
  · exact C4_budget_enforcement.2.2.1 Int intResultInfo beltInt envFinal agentBudget
      finalCallMessage "maximum token usage exceeded: 8 > 5" rfl rfl
  · exact C4_budget_enforcement.2.2.2 Int intResultInfo beltInt agentBudget envFinal []
      "update usage: maximum token usage exceeded: 8 > 5" rfl

/-- C6: the turn loop returns success only with the final-result flag set
(and returns exactly that value with the agent's own usage and history); a
finished turn with no final result ever set appends exactly one
final-result reminder and continues with another turn instead of
terminating; an unfinished turn continues without a reminder. -/
theorem C6_loop_invariant :
    (∀ (ResultT : Type) (info : ResultTypeInfo ResultT) (belt : Belt ResultT)
        (envs : List TurnEnv) (agent agentF : Agent ResultT) (v : ResultT)
        (u : TokenUsage) (m : List Message),
      runLoop info belt agent envs = (agentF, RunOutcome.success v u m) →
      agentF.finalResult = some v ∧ u = agentF.llmUsage ∧ m = agentF.llmMessages) ∧
    (∀ (ResultT : Type) (info : ResultTypeInfo ResultT) (belt : Belt ResultT)
        (agent : Agent ResultT) (env : TurnEnv) (rest : List TurnEnv),
      (runTurn info belt env agent).result = Except.ok true →
      (runTurn info belt env agent).agent.finalResult = none →
      runLoop info belt agent (env :: rest) =
        runLoop info belt
          (addSystemReminder (runTurn info belt env agent).agent finalResultReminderText)
          rest) ∧
    (∀ (ResultT : Type) (info : ResultTypeInfo ResultT) (belt : Belt ResultT)
        (agent : Agent ResultT) (env : TurnEnv) (rest : List TurnEnv),
      (runTurn info belt env agent).result = Except.ok false →
      runLoop info belt agent (env :: rest) =
        runLoop info belt (runTurn info belt env agent).agent rest) := by
  refine ⟨?_, ?_, ?_⟩
  · intro ResultT info belt envs
    induction envs with
    | nil =>
      intro agent agentF v u m h
      simp only [runLoop] at h
      cases h
    | cons env rest ih =>
      intro agent agentF v u m h
      simp only [runLoop] at h
      cases hres : (runTurn info belt env agent).result with
      | error e =>
        rw [hres] at h
        simp only [] at h
        cases h
      | ok fin =>
        rw [hres] at h
        cases fin with
        | false =>
          simp only [Bool.not_false, if_true] at h
          exact ih _ _ _ _ _ h
        | true =>
          simp only [Bool.not_true, if_false] at h
          cases hfr : (runTurn info belt env agent).agent.finalResult with
          | some v2 =>
            rw [hfr] at h
            simp only [] at h
            have h1 : (runTurn info belt env agent).agent = agentF := congrArg Prod.fst h
            have h2 := congrArg Prod.snd h
            simp only [] at h2
            injection h2 with e1 e2 e3
            subst h1
            subst e1
            subst e2
            subst e3
            exact ⟨hfr, rfl, rfl⟩
          | none =>
            rw [hfr] at h
            simp only [] at h
            exact ih _ _ _ _ _ h
  · intro ResultT info belt agent env rest h1 h2
    simp only [runLoop]
    rw [h1, h2]
    simp
  · intro ResultT info belt agent env rest h1
    simp only [runLoop]
    rw [h1]
    simp

/-- An assistant reply with no tool calls. -/
def msgNoCall : Message := ⟨MessageRole.assistant, [ContentPart.text "hmm"], ⟨1, 0, 0, 0⟩⟩

/-- A scripted turn producing zero tool calls. -/
def envNoCall : TurnEnv := ⟨Except.ok msgNoCall, [], 0, 0⟩

/-- C6 witness: a concrete zero-tool-call turn injects the final-result
reminder and loops; the concrete immediate-final-result run returns success
only with the flag set to the returned value. -/
theorem C6_witness :
    runLoop intResultInfo beltInt agentInt0 [envNoCall] =
      runLoop intResultInfo beltInt
        (addSystemReminder (runTurn intResultInfo beltInt envNoCall agentInt0).agent
          finalResultReminderText) [] ∧
    (runLoop intResultInfo beltInt (addUserPrompt agentInt0 "go") [envFinal]).fst.finalResult =
      some 42 := by
  constructor
  · exact C6_loop_invariant.2.1 Int intResultInfo beltInt agentInt0 envNoCall [] rfl rfl
  · have h := C6_loop_invariant.1 Int intResultInfo beltInt [envFinal]
      (addUserPrompt agentInt0 "go")
      (runLoop intResultInfo beltInt (addUserPrompt agentInt0 "go") [envFinal]).fst
      42 (⟨3, 5, 0, 0⟩ : TokenUsage)
      ((runLoop intResultInfo beltInt (addUserPrompt agentInt0 "go") [envFinal]).fst.llmMessages)
      rfl
    exact h.1

theorem range_filterMap_get {α : Type} (l : List α) :
    (List.range l.length).filterMap (fun i => l.get? i) = l := by
  induction l with
  | nil => rfl
  | cons a t ih =>
    rw [List.length_cons, List.range_succ_eq_map, List.filterMap_cons]
    simp only [List.get?_cons_zero, List.filterMap_map]
    have hcomp : ((fun i => (a :: t).get? i) ∘ Nat.succ) = fun i => t.get? i := by
      funext i
      simp
    rw [hcomp, ih]

/-- C2 (amended): a turn whose reply requests `K ≥ 1` tool calls, under any
valid completion schedule (a permutation of the dispatch indices), appends
exactly one user-role follow-up message containing exactly `K` tool results —
one per requested call, matched by call identifier — but the results appear
in the order the concurrent invocations complete (the shared channel's
arrival order), which need not be the dispatch order. -/
theorem C2_tool_result_bundling (ResultT : Type) (info : ResultTypeInfo ResultT)
    (belt : Belt ResultT) (env : TurnEnv) (agent : Agent ResultT) (message : Message)
    (fin : Bool)
    (hreply : env.reply = Except.ok message)
    (hperm : env.completion.Perm (List.range (extractToolUses message.Parts).length))
    (hK : 1 ≤ (extractToolUses message.Parts).length)
    (hok : (runTurn info belt env agent).result = Except.ok fin) :
    ∃ results mid,
      (runTurn info belt env agent).agent.llmMessages =
        agent.llmMessages ++ mid ++ [message, NewUserMessage results] ∧
      (mid = [] ∨ mid = [systemReminderMessage timeboxReminderText]) ∧
      results.length = (extractToolUses message.Parts).length ∧
      results.map resultCallID =
        env.completion.filterMap
          (fun i => ((extractToolUses message.Parts).get? i).map toolUseParams.ID) ∧
      (results.map resultCallID).Perm
        ((extractToolUses message.Parts).map toolUseParams.ID) := by
  have hordperm : (env.completion.filterMap
      (fun i => (extractToolUses message.Parts).get? i)).Perm
      (extractToolUses message.Parts) := by
    have hp := hperm.filterMap (fun i => (extractToolUses message.Parts).get? i)
    rwa [range_filterMap_get] at hp
  have hordlen : (env.completion.filterMap
      (fun i => (extractToolUses message.Parts).get? i)).length =
      (extractToolUses message.Parts).length := hordperm.length_eq
  simp only [runTurn, hreply] at hok ⊢
  by_cases hexp : timeboxExpired agent env.nowStart = true
  · simp only [if_pos hexp] at hok ⊢
    split at hok
    · simp at hok
    · rename_i heq
      generalize hD : dispatchTools info belt env.nowDispatch
        ((updateUsage
          { addSystemReminder agent timeboxReminderText with
            llmMessages := (addSystemReminder agent timeboxReminderText).llmMessages
              ++ [message] } message.Usage).fst)
        (env.completion.filterMap
          (fun i => (extractToolUses message.Parts).get? i)) = D at hok ⊢
      have hDm : D.fst.llmMessages =
          agent.llmMessages ++ [systemReminderMessage timeboxReminderText] ++ [message] := by
        rw [← hD, dispatchTools_fst_messages, updateUsage_fst]
        simp [addSystemReminder]
      have hDids : D.snd.map resultCallID =
          (env.completion.filterMap
            (fun i => (extractToolUses message.Parts).get? i)).map toolUseParams.ID := by
        rw [← hD, dispatchTools_snd_ids]
      have hDlen : D.snd.length = (extractToolUses message.Parts).length := by
        have h2 := congrArg List.length hDids
        rw [List.length_map, List.length_map] at h2
        exact h2.trans hordlen
      have hpos : 0 < D.snd.length := by
        rw [hDlen]
        exact hK
      rw [if_pos hpos]
      refine ⟨D.snd, [systemReminderMessage timeboxReminderText], ?_, Or.inr rfl, hDlen,
        ?_, ?_⟩
      · simp [hDm]
      · rw [hDids, List.map_filterMap]
      · rw [hDids]
        exact (hordperm.map toolUseParams.ID)
  · simp only [if_neg hexp] at hok ⊢
    split at hok
    · simp at hok
    · rename_i heq
      generalize hD : dispatchTools info belt env.nowDispatch
        ((updateUsage
          { agent with llmMessages := agent.llmMessages ++ [message] } message.Usage).fst)
        (env.completion.filterMap
          (fun i => (extractToolUses message.Parts).get? i)) = D at hok ⊢
      have hDm : D.fst.llmMessages = agent.llmMessages ++ [message] := by
        rw [← hD, dispatchTools_fst_messages, updateUsage_fst]
      have hDids : D.snd.map resultCallID =
          (env.completion.filterMap
            (fun i => (extractToolUses message.Parts).get? i)).map toolUseParams.ID := by
        rw [← hD, dispatchTools_snd_ids]
      have hDlen : D.snd.length = (extractToolUses message.Parts).length := by
        have h2 := congrArg List.length hDids
        rw [List.length_map, List.length_map] at h2
        exact h2.trans hordlen
      have hpos : 0 < D.snd.length := by
        rw [hDlen]
        exact hK
      rw [if_pos hpos]
      refine ⟨D.snd, [], ?_, Or.inl rfl, hDlen, ?_, ?_⟩
      · simp [hDm]
      · rw [hDids, List.map_filterMap]
      · rw [hDids]
        exact (hordperm.map toolUseParams.ID)

/-- C2 counterexample: a turn requesting two tool calls (ids `id1`, `id2`, in
that dispatch order) under the valid completion schedule in which the second
call completes first produces a follow-up message whose results are ordered
`id2, id1` — the completion order, not the dispatch order — refuting the
claim that the result order equals the dispatch order regardless of
completion order. -/
theorem C2_counterexample :
    (runTurn intResultInfo beltInt cexEnv agentInt0).agent.llmMessages.map
      (fun m => m.Parts.map resultCallID) = [["", ""], ["id2", "id1"]] ∧
    (extractToolUses cexMessage.Parts).map toolUseParams.ID = ["id1", "id2"] ∧
    cexEnv.completion.Perm (List.range (extractToolUses cexMessage.Parts).length) ∧
    (["id2", "id1"] : List String) ≠ ["id1", "id2"] :=
  ⟨rfl, rfl, by decide, by decide⟩

/-- C2 witness: the amended bundling property instantiated on the concrete
swapped-completion turn. -/
theorem C2_witness :
    ∃ results mid,
      (runTurn intResultInfo beltInt cexEnv agentInt0).agent.llmMessages =
        agentInt0.llmMessages ++ mid ++ [cexMessage, NewUserMessage results] ∧
      (mid = [] ∨ mid = [systemReminderMessage timeboxReminderText]) ∧
      results.length = (extractToolUses cexMessage.Parts).length ∧
      results.map resultCallID =
        cexEnv.completion.filterMap
          (fun i => ((extractToolUses cexMessage.Parts).get? i).map toolUseParams.ID) ∧
      (results.map resultCallID).Perm
        ((extractToolUses cexMessage.Parts).map toolUseParams.ID) :=
  C2_tool_result_bundling Int intResultInfo beltInt cexEnv agentInt0 cexMessage false rfl
    (by decide) (by decide) rfl

theorem useTool_finalResult_decode_error (agent : Agent Int) (now : Nat)
    (tid : String) (tinput : Json) (e : String)
    (hdec : unmarshalPrimitiveInput intResultInfo tinput = Except.error e) :
    useTool intResultInfo beltInt now agent ⟨tid, FinalResultToolName, tinput⟩ =
      (agent, ContentPart.toolResult tid FinalResultToolName
        ("unmarshal input: " ++ e) true) := by
  have hcond : ¬(timeboxExpired agent now = true ∧
      toolUseParams.Name ⟨tid, FinalResultToolName, tinput⟩ ≠ FinalResultToolName) := by
    intro h
    exact h.2 rfl
  have hUT : UseTool intResultInfo beltInt agent.finalResult FinalResultToolName tinput =
      (agent.finalResult, Except.error ("unmarshal input: " ++ e)) := by
    have hlook : mapLookup FinalResultToolName beltInt.toolDefinitions =
        some finalResultDefInt := rfl
    unfold UseTool
    rw [hlook]
    simp only [finalResultDefInt]
    unfold finalResult
    simp only [intResultInfo, structResultType, reflectTypeOfZero]
    simp only [show (decide (GoKind.int = GoKind.struct)) = false from rfl, Bool.not_false,
      if_true]
    rw [show ({ kind := GoKind.int, zero := 0, unmarshal := unmarshalInt } :
      ResultTypeInfo Int) = intResultInfo from rfl, hdec]
  unfold useTool
  rw [if_neg hcond, hUT]

/-- C7: a primitive-result-typed agent whose model immediately calls
`FinalResult` with `{response: 42}` completes with result 42 and executes no
further scripted turn (the loop result is that of the one-turn script, for
every continuation of the script); every primitive (non-struct) result type
gets the single-field envelope schema `{response: T}` as its final-result
schema; and a payload that fails to decode yields a decode error flagged
back as an error tool result, with the final-result slot left unset. -/
theorem C7_primitive_final_result :
    (∀ rest : List TurnEnv, ∃ agentF u msgs,
      runLoop intResultInfo beltInt (addUserPrompt agentInt0 "go") (envFinal :: rest) =
        (agentF, RunOutcome.success 42 u msgs) ∧
      runLoop intResultInfo beltInt (addUserPrompt agentInt0 "go") (envFinal :: rest) =
        runLoop intResultInfo beltInt (addUserPrompt agentInt0 "go") [envFinal]) ∧
    (∀ (ResultT : Type) (info : ResultTypeInfo ResultT) (tools : List (Definition ResultT))
        (belt : Belt ResultT),
      structResultType info.kind = Except.ok false →
      NewBelt info tools = Except.ok belt →
      (∀ d ∈ tools, d.Name ≠ FinalResultToolName) →
      belt.FinalResultDefinition =
        ⟨FinalResultToolName, finalResultDescription, GenerateSchemaEnvelope info.kind⟩) ∧
    (∀ (agent : Agent Int) (now : Nat) (tid : String) (tinput : Json) (e : String),
      unmarshalPrimitiveInput intResultInfo tinput = Except.error e →
      useTool intResultInfo beltInt now agent ⟨tid, FinalResultToolName, tinput⟩ =
        (agent, ContentPart.toolResult tid FinalResultToolName
          ("unmarshal input: " ++ e) true)) := by
  refine ⟨?_, ?_, ?_⟩
  · intro rest
    exact ⟨_, _, _, rfl, rfl⟩
  · intro ResultT info tools belt hprim hbelt hne
    have h := (NewBelt_lookup_final ResultT info tools belt false hprim hbelt).2 hne
    unfold Belt.FinalResultDefinition
    rw [h]
    rfl
  · intro agent now tid tinput e hdec
    exact useTool_finalResult_decode_error agent now tid tinput e hdec

/-- C7 witness: the immediate `{response: 42}` run succeeds with 42 even when
a further (failing) turn is scripted; the concrete `int` registry carries the
envelope schema; the concrete payload `{response: "x"}` is flagged back as a
decode error. -/
theorem C7_witness :
    (∃ agentF u msgs,
      runLoop intResultInfo beltInt (addUserPrompt agentInt0 "go") [envFinal, envErr] =
        (agentF, RunOutcome.success 42 u msgs)) ∧
    beltInt.FinalResultDefinition =
      ⟨FinalResultToolName, finalResultDescription, GenerateSchemaEnvelope GoKind.int⟩ ∧
    useTool intResultInfo beltInt 0 agentInt0
      ⟨"c9", FinalResultToolName, Json.obj [("response", Json.str "x")]⟩ =
      (agentInt0, ContentPart.toolResult "c9" FinalResultToolName
        ("unmarshal input: " ++ "json: cannot unmarshal value into Go value of type int")
        true) := by
  refine ⟨?_, ?_, ?_⟩
  · obtain ⟨A, u, m, h1, h2⟩ := C7_primitive_final_result.1 [envErr]
    exact ⟨A, u, m, h1⟩
  · exact C7_primitive_final_result.2.1 Int intResultInfo [] beltInt rfl rfl
      (by intro d hd; cases hd)
  · exact C7_primitive_final_result.2.2 agentInt0 0 "c9"
      (Json.obj [("response", Json.str "x")])
      "json: cannot unmarshal value into Go value of type int" rfl

/-- C3 (amended): the façade adds exactly the componentwise delta between the
run's total usage and `PreviousMeta`'s usage into the shared aggregator when
the agent returns a result — i.e. on success only; when the run fails, the
agent result is nil and nothing is added (the aggregator, and the whole
`Base`, are unchanged). -/
theorem C3_usage_delta_on_success (ResultT : Type) (info : ResultTypeInfo ResultT)
    (b : Base) (p : RunParams ResultT) (now0 : Nat) (uuid : String) (fs : FileSystem)
    (counter : Int) (envs : List TurnEnv) :
    (∀ (b2 : Base) (dta : ResultT) (meta : RunMeta),
      RunFacade info b p now0 uuid fs counter envs = (b2, FacadeOutcome.success dta meta) →
      b2.llmUsage = b.llmUsage.add (meta.Usage.sub p.PreviousMeta.Usage)) ∧
    (∀ (b2 : Base) (e : String),
      RunFacade info b p now0 uuid fs counter envs = (b2, FacadeOutcome.failure e) →
      b2 = b) := by
  constructor
  · intro b2 dta meta h
    unfold RunFacade at h
    split at h
    · exact absurd (congrArg Prod.snd h) (by simp)
    · split at h
      · exact absurd (congrArg Prod.snd h) (by simp)
      · exact absurd (congrArg Prod.snd h) (by simp)
      · rw [Prod.mk.injEq] at h
        obtain ⟨hb, hout⟩ := h
        injection hout with hdta hmeta
        subst hmeta
        rw [← hb]
        rfl
  · intro b2 e h
    unfold RunFacade at h
    split at h
    · exact (congrArg Prod.fst h).symm
    · split at h
      · exact absurd (congrArg Prod.snd h) (by simp)
      · exact (congrArg Prod.fst h).symm
      · exact absurd (congrArg Prod.snd h) (by simp)

/-- C3 counterexample: a façade run over a base with ceiling 5 whose single
turn consumes 8 tokens fails with the budget error and leaves the shared
aggregator (and the whole `Base`) unchanged, although the run recorded a
usage delta of (3,5,0,0) beyond `PreviousMeta` — refuting "the addition
happens regardless of success or failure". -/
theorem C3_counterexample :
    (RunFacade intResultInfo baseB paramsB 0 "u" [] 7 [envFinal]).fst = baseB ∧
    (∃ e, (RunFacade intResultInfo baseB paramsB 0 "u" [] 7 [envFinal]).snd =
      FacadeOutcome.failure e) ∧
    NewAgent intResultInfo
      { AgentID := 0, SystemPrompt := "s", LLMMessages := [], SessionFilePath := "",
        MaxToolLogLength := 100, Tools := [], MaxTokenUsage := 5, TimeboxedUntil := none,
        CacheBust := false, InitialUsage := TokenUsage.zero } 7 [] "u" =
      Except.ok (agentB, beltInt) ∧
    (runLoop intResultInfo beltInt (addUserPrompt agentB "p") [envFinal]).fst.llmUsage =
      (⟨3, 5, 0, 0⟩ : TokenUsage) ∧
    TokenUsage.sub ⟨3, 5, 0, 0⟩ paramsB.PreviousMeta.Usage ≠ TokenUsage.zero := by
  exact ⟨rfl, ⟨_, rfl⟩, rfl, rfl, by decide⟩

/-- The history produced by the immediate-final-result façade run. -/
def msgsSuccess : List Message :=
  [NewUserMessage [ContentPart.text "p"], finalCallMessage,
   NewUserMessage [ContentPart.toolResult "call_1" FinalResultToolName
     "Final result processed." false]]

/-- C3 witness: the unlimited-budget façade run succeeds and adds exactly the
delta (3,5,0,0) to the aggregator; the budget-limited façade run fails and
leaves the `Base` unchanged. -/
theorem C3_witness :
    ((RunFacade intResultInfo { baseB with MaxTokenUsage := 0 } paramsB 0 "u" [] 7
        [envFinal]).fst).llmUsage =
      TokenUsage.add baseB.llmUsage
        (TokenUsage.sub ⟨3, 5, 0, 0⟩ paramsB.PreviousMeta.Usage) ∧
    (RunFacade intResultInfo baseB paramsB 0 "u" [] 7 [envFinal]).fst = baseB := by
  constructor
  · exact (C3_usage_delta_on_success Int intResultInfo { baseB with MaxTokenUsage := 0 }
      paramsB 0 "u" [] 7 [envFinal]).1 _ 42 ⟨7, ⟨3, 5, 0, 0⟩, msgsSuccess⟩ rfl
  · exact (C3_usage_delta_on_success Int intResultInfo baseB paramsB 0 "u" [] 7
      [envFinal]).2 _
      "run agent: run turn: update usage: maximum token usage exceeded: 8 > 5" rfl

end BitriseAICore
